import Mathlib

/-!
Shallow embedding of github.com/ricotheque/togglplanapi (src/togglplanapi.go).

The repository is a small Go client for the Toggl Plan API.  Its effectful
parts are modelled by explicit data:

- an HTTP attempt outcome (`AttemptOutcome`) is either a network error or a
  response carrying a status code and a body string;
- the network is an oracle `Nat → AttemptOutcome` giving the outcome of each
  successive attempt of one logical request;
- Go `map[string]string` values are modelled as update lists
  `List (String × String)` where an assignment prepends and a lookup takes the
  most recent binding (`mapSet` / `mapGet`), which is extensionally the Go map;
- Go `error` values are modelled by the inductive `GoError`;
- the retry loop of the vendored hashicorp/go-retryablehttp client
  (`Client.Do` with the `CheckRetry` callback installed by `doRequest`,
  `RetryMax = 5`, `RetryWaitMin = 1s`, `RetryWaitMax = 30s`, default backoff)
  is embedded as `clientDoAux` / `clientDo`;
- durations are nanosecond counts (`Nat`), as in Go `time.Duration`.
-/

namespace Togglplanapi

/-- Outcome of one physical HTTP attempt: either a network-level error
(`http.Client.Do` returned a non-nil error) or a delivered response with a
status code and a body.  Response headers are not modelled: no code path of
this repository reads them. -/
inductive AttemptOutcome where
  | netErr (msg : String)
  | response (status : Nat) (body : String)
deriving Repr, DecidableEq

/-- Model of Go `error` values produced by the code paths of this package. -/
inductive GoError where
  /-- `errors.New(msg)` -/
  | simple (msg : String)
  /-- the retryablehttp terminal failure `giving up after N attempt(s)` -/
  | giveUp (attempts : Nat)
  /-- a network-level transport error surfaced unretried -/
  | net (msg : String)
  /-- an `encoding/json` unmarshalling error -/
  | jsonErr (msg : String)
deriving Repr, DecidableEq

/-- The `togglPlanApi` client struct of the Go source. -/
structure togglPlanApi where
  username : String
  password : String
  clientId : String
  clientSecret : String
  bearerToken : String
deriving Repr, DecidableEq

/-- The `authDetails` struct of the Go source (fields `Type`, `Credential`;
`Type` is a reserved word in Lean, hence lower case here). -/
structure authDetails where
  type : String
  credential : String
deriving Repr, DecidableEq

/-- `New` from the Go source. -/
def New (username password clientId clientSecret bearerToken : String) : togglPlanApi :=
  { username := username
    password := password
    clientId := clientId
    clientSecret := clientSecret
    bearerToken := bearerToken }

/-- One nanosecond count of Go `time.Second`. -/
def second : Nat := 1000000000

/-- `client.RetryMax = 5` set by `doRequest`: the maximum number of retries
(on top of the initial attempt) of the retryablehttp client. -/
def retryMax : Nat := 5

/-- `client.RetryWaitMin = 1 * time.Second` set by `doRequest`. -/
def retryWaitMin : Nat := 1 * second

/-- `client.RetryWaitMax = 30 * time.Second` set by `doRequest`. -/
def retryWaitMax : Nat := 30 * second

/-- The `client.CheckRetry` callback installed by `doRequest`
(src/togglplanapi.go): retry on a network error, on HTTP 429, and on HTTP 5xx
other than 501; never on 401; otherwise do not retry. -/
def checkRetry : AttemptOutcome → Bool
  | .netErr _ => true
  | .response st _ =>
    if st = 429 then true
    else if st = 401 then false
    else if 500 ≤ st ∧ st ≠ 501 then true
    else false

/-- The exponential arm of `retryablehttp.DefaultBackoff`, reached when the
`Retry-After` override does not apply: the sleep before retry number
`attemptNum + 1` is `2 ^ attemptNum * mn` capped at `mx`.  The Go float
computation `math.Pow(2, attemptNum) * min` is exact for every attempt
number reachable here.  The full callback, with the `Retry-After` override
for 429 and 503 responses, is `defaultBackoffFull` below; `clientDoAux`
uses this arm directly because the headerless outcomes it runs on carry no
`Retry-After` header, and `clientDoAuxH` uses the full callback. -/
def defaultBackoff (mn mx attemptNum : Nat) : Nat :=
  let sleep := 2 ^ attemptNum * mn
  if sleep > mx then mx else sleep

/-- Result of one `Client.Do` call: the delivered response `(status, body)`
with a nil error, or a terminal `GoError`. -/
inductive DoResult where
  | ok (status : Nat) (body : String)
  | error (e : GoError)
deriving Repr, DecidableEq

/-- Result of the retryablehttp `Client.Do` loop: the delivered response
`(status, body)` or the terminal error, together with the number of physical
attempts made and the list of backoff waits slept between attempts. -/
structure ClientDoOut where
  result : DoResult
  attempts : Nat
  waits : List Nat
deriving Repr, DecidableEq

/-- Exit of the retryablehttp loop at a non-retryable outcome: a delivered
response is returned to the caller with a nil error; a network error would be
surfaced directly (unreachable, since `checkRetry` always retries network
errors). -/
def deliver (outcome : AttemptOutcome) (i : Nat) : ClientDoOut :=
  match outcome with
  | .response st b => { result := .ok st b, attempts := i + 1, waits := [] }
  | .netErr e => { result := .error (.net e), attempts := i + 1, waits := [] }

/-- The retryablehttp `Client.Do` loop as configured by `doRequest`, at
attempt index `i` (zero-based) with `remain = retryMax - i` retries left:
make attempt `i`; if `checkRetry` rejects the outcome, deliver it; otherwise
retry after the backoff wait while budget remains, and give up with the
`giving up after N attempt(s)` error once the budget is exhausted. -/
def clientDoAux (o : Nat → AttemptOutcome) : Nat → Nat → ClientDoOut
  | 0, i =>
    if checkRetry (o i) then
      { result := .error (.giveUp (i + 1)), attempts := i + 1, waits := [] }
    else deliver (o i) i
  | r + 1, i =>
    if checkRetry (o i) then
      let rest := clientDoAux o r (i + 1)
      { result := rest.result
        attempts := rest.attempts
        waits := defaultBackoff retryWaitMin retryWaitMax i :: rest.waits }
    else deliver (o i) i

/-- `client.Do(req)` as configured by `doRequest`: the loop starting at
attempt 0 with `retryMax` retries available. -/
def clientDo (o : Nat → AttemptOutcome) : ClientDoOut :=
  clientDoAux o retryMax 0

/-- `net/http.StatusText`: the standard status text registry of Go. -/
def statusText : Nat → String
  | 100 => "Continue"
  | 101 => "Switching Protocols"
  | 102 => "Processing"
  | 103 => "Early Hints"
  | 200 => "OK"
  | 201 => "Created"
  | 202 => "Accepted"
  | 203 => "Non-Authoritative Information"
  | 204 => "No Content"
  | 205 => "Reset Content"
  | 206 => "Partial Content"
  | 207 => "Multi-Status"
  | 208 => "Already Reported"
  | 226 => "IM Used"
  | 300 => "Multiple Choices"
  | 301 => "Moved Permanently"
  | 302 => "Found"
  | 303 => "See Other"
  | 304 => "Not Modified"
  | 305 => "Use Proxy"
  | 307 => "Temporary Redirect"
  | 308 => "Permanent Redirect"
  | 400 => "Bad Request"
  | 401 => "Unauthorized"
  | 402 => "Payment Required"
  | 403 => "Forbidden"
  | 404 => "Not Found"
  | 405 => "Method Not Allowed"
  | 406 => "Not Acceptable"
  | 407 => "Proxy Authentication Required"
  | 408 => "Request Timeout"
  | 409 => "Conflict"
  | 410 => "Gone"
  | 411 => "Length Required"
  | 412 => "Precondition Failed"
  | 413 => "Request Entity Too Large"
  | 414 => "Request URI Too Long"
  | 415 => "Unsupported Media Type"
  | 416 => "Requested Range Not Satisfiable"
  | 417 => "Expectation Failed"
  | 418 => "I\x27m a teapot"
  | 421 => "Misdirected Request"
  | 422 => "Unprocessable Entity"
  | 423 => "Locked"
  | 424 => "Failed Dependency"
  | 425 => "Too Early"
  | 426 => "Upgrade Required"
  | 428 => "Precondition Required"
  | 429 => "Too Many Requests"
  | 431 => "Request Header Fields Too Large"
  | 451 => "Unavailable For Legal Reasons"
  | 500 => "Internal Server Error"
  | 501 => "Not Implemented"
  | 502 => "Bad Gateway"
  | 503 => "Service Unavailable"
  | 504 => "Gateway Timeout"
  | 505 => "HTTP Version Not Supported"
  | 506 => "Variant Also Negotiates"
  | 507 => "Insufficient Storage"
  | 508 => "Loop Detected"
  | 510 => "Not Extended"
  | 511 => "Network Authentication Required"
  | _ => ""

/-- Go map assignment `m[k] = v` on the update-list model of
`map[string]string`: prepend the new binding (the most recent binding wins on
lookup, as in the Go map). -/
def mapSet (m : List (String × String)) (k v : String) : List (String × String) :=
  (k, v) :: m

/-- Go map lookup `m[k]` on the update-list model: the most recent binding
for `k`, if any. -/
def mapGet (m : List (String × String)) (k : String) : Option String :=
  (m.find? (fun p => p.1 == k)).map Prod.snd

/-- `mergeMaps` from the Go source: a fresh map receives every entry of
`map1` and then every entry of `map2`, so on a key present in both the value
of `map2` overwrites the value of `map1`. -/
def mergeMaps (map1 map2 : List (String × String)) : List (String × String) :=
  let mergedMap : List (String × String) := []
  let mergedMap := map1.foldl (fun acc p => mapSet acc p.1 p.2) mergedMap
  let mergedMap := map2.foldl (fun acc p => mapSet acc p.1 p.2) mergedMap
  mergedMap

/-- The logical HTTP request built by `doRequest` via `retryablehttp.NewRequest`
and the `req.Header.Set` calls.  The loop `for k, v := range headers` copies
the header map into the request verbatim, so the request headers are modelled
as the header map itself, followed by the `Authorization` assignment.  Header
key canonicalisation of `net/http` is not modelled: every key written by this
package is already in canonical form. -/
structure HttpRequest where
  method : String
  url : String
  body : String
  headers : List (String × String)
deriving Repr, DecidableEq

/-- Result of `doRequest`: the `(string, error)` pair returned to the caller,
the logical request that was sent, and the attempt/backoff accounting of the
underlying retry loop. -/
structure DoRequestOut where
  result : String
  error : Option GoError
  sent : HttpRequest
  attempts : Nat
  waits : List Nat
deriving Repr, DecidableEq

/-- `doRequest` from the Go source: build the request (headers, then the
`Authorization` header from `auth`), run it through the retrying client, and
translate the outcome: a terminal client error becomes
`("Error running request", err)`; a delivered 401 becomes
`("Unauthorized", errors.New("401"))`; another delivered status outside
200..299 becomes `(fmt.Sprint(status), errors.New(http.StatusText(status)))`;
a delivered 2xx returns the response body with a nil error.  The
`retryablehttp.NewRequest` failure branch (`"Error building request"`) and the
`io.ReadAll` failure branch (`"Error reading response"`) are not modelled:
methods and URLs are opaque strings here and response bodies are already
strings. -/
def doRequest (pa : togglPlanApi) (url method : String) (body : String)
    (headers : List (String × String)) (auth : Option authDetails)
    (o : Nat → AttemptOutcome) : DoRequestOut :=
  let _ := pa
  let reqHeaders :=
    match auth with
    | some a => mapSet headers "Authorization" (a.type ++ " " ++ a.credential)
    | none => headers
  let req : HttpRequest := { method := method, url := url, body := body, headers := reqHeaders }
  let d := clientDo o
  match d.result with
  | .error e =>
    { result := "Error running request", error := some e, sent := req
      attempts := d.attempts, waits := d.waits }
  | .ok st respBody =>
    if st = 401 then
      { result := "Unauthorized", error := some (.simple "401"), sent := req
        attempts := d.attempts, waits := d.waits }
    else if st < 200 ∨ 300 ≤ st then
      { result := toString st, error := some (.simple (statusText st)), sent := req
        attempts := d.attempts, waits := d.waits }
    else
      { result := respBody, error := none, sent := req
        attempts := d.attempts, waits := d.waits }

/-- UTF-8 encoding of one character, as byte values (Go strings are UTF-8
byte sequences and `[]byte(s)` exposes exactly these bytes). -/
def utf8Bytes (c : Char) : List Nat :=
  let n := c.toNat
  if n < 128 then [n]
  else if n < 2048 then [192 + n / 64, 128 + n % 64]
  else if n < 65536 then [224 + n / 4096, 128 + n / 64 % 64, 128 + n % 64]
  else [240 + n / 262144, 128 + n / 4096 % 64, 128 + n / 64 % 64, 128 + n % 64]

/-- The byte sequence of a Go string (`[]byte(s)`). -/
def strBytes (s : String) : List Nat :=
  s.toList.foldr (fun c acc => utf8Bytes c ++ acc) []

/-- The alphabet of `base64.StdEncoding`. -/
def b64Alphabet : List Char :=
  "ABCDEFGHIJKLMNOPQRSTUVWXYZabcdefghijklmnopqrstuvwxyz0123456789+/".toList

/-- The character of `base64.StdEncoding` for a 6-bit value. -/
def b64Char (n : Nat) : Char := b64Alphabet.getD n '?'

/-- `base64.StdEncoding.EncodeToString`: standard base64 with `=` padding,
three input bytes per four output characters. -/
def base64Encode : List Nat → String
  | [] => ""
  | [a] =>
    String.mk [b64Char (a / 4), b64Char (a % 4 * 16), '=', '=']
  | [a, b] =>
    String.mk [b64Char (a / 4), b64Char (a % 4 * 16 + b / 16), b64Char (b % 16 * 4), '=']
  | a :: b :: c :: rest =>
    String.mk [b64Char (a / 4), b64Char (a % 4 * 16 + b / 16),
      b64Char (b % 16 * 4 + c / 64), b64Char (c % 64)] ++ base64Encode rest

/-- A JSON value, for the model of `encoding/json` unmarshalling. -/
inductive JsonVal where
  | null
  | bool (b : Bool)
  | num (raw : String)
  | str (s : String)
  | arr (elems : List JsonVal)
  | obj (fields : List (String × JsonVal))

/-- The double-quote character. -/
def quoteChar : Char := Char.ofNat 34

/-- The opening-brace character. -/
def lbraceChar : Char := Char.ofNat 123

/-- The closing-brace character. -/
def rbraceChar : Char := Char.ofNat 125

/-- JSON insignificant whitespace. -/
def isWsChar (c : Char) : Bool :=
  c = ' ' || c = Char.ofNat 9 || c = Char.ofNat 10 || c = Char.ofNat 13

/-- Drop leading JSON whitespace. -/
def skipWs (cs : List Char) : List Char := cs.dropWhile isWsChar

/-- An ASCII decimal digit. -/
def isDigit (c : Char) : Bool := '0' ≤ c && c ≤ '9'

/-- The value of one hexadecimal digit. -/
def hexVal (c : Char) : Option Nat :=
  if '0' ≤ c ∧ c ≤ '9' then some (c.toNat - 48)
  else if 'a' ≤ c ∧ c ≤ 'f' then some (c.toNat - 97 + 10)
  else if 'A' ≤ c ∧ c ≤ 'F' then some (c.toNat - 65 + 10)
  else none

/-- Parse the remainder of a JSON string literal (the opening quote already
consumed): content up to the closing quote, decoding the standard escapes.
A `\u` escape in the surrogate range decodes to U+FFFD, as `encoding/json`
does for ill-formed surrogates (well-formed surrogate pairs are outside this
model). -/
def parseJString : Nat → List Char → Option (String × List Char)
  | 0, _ => none
  | _ + 1, [] => none
  | fuel + 1, c :: rest =>
    if c = quoteChar then some ("", rest)
    else if c = '\\' then
      match rest with
      | [] => none
      | e :: rest2 =>
        let esc : Option (Char × List Char) :=
          if e = quoteChar then some (quoteChar, rest2)
          else if e = '\\' then some ('\\', rest2)
          else if e = '/' then some ('/', rest2)
          else if e = 'b' then some (Char.ofNat 8, rest2)
          else if e = 'f' then some (Char.ofNat 12, rest2)
          else if e = 'n' then some (Char.ofNat 10, rest2)
          else if e = 'r' then some (Char.ofNat 13, rest2)
          else if e = 't' then some (Char.ofNat 9, rest2)
          else if e = 'u' then
            match rest2 with
            | h1 :: h2 :: h3 :: h4 :: rest3 =>
              match hexVal h1, hexVal h2, hexVal h3, hexVal h4 with
              | some a, some b, some c2, some d =>
                let n := ((a * 16 + b) * 16 + c2) * 16 + d
                if 55296 ≤ n ∧ n ≤ 57343 then some (Char.ofNat 65533, rest3)
                else some (Char.ofNat n, rest3)
              | _, _, _, _ => none
            | _ => none
          else none
        match esc with
        | some (ch, rest3) =>
          (parseJString fuel rest3).map (fun p => (String.mk (ch :: p.1.toList), p.2))
        | none => none
    else if c.toNat < 32 then none
    else (parseJString fuel rest).map (fun p => (String.mk (c :: p.1.toList), p.2))

/-- Parse a JSON number (`-? int frac? exp?`), returning its raw text. -/
def parseNumber (cs : List Char) : Option (String × List Char) :=
  let signAndRest : List Char × List Char :=
    match cs with
    | '-' :: rest => (['-'], rest)
    | _ => ([], cs)
  let sign := signAndRest.1
  let ipSplit := signAndRest.2.span isDigit
  let ip := ipSplit.1
  let cs2 := ipSplit.2
  if ip.isEmpty then none
  else if 1 < ip.length ∧ ip.head? = some '0' then none
  else
    let fracStep : Option (List Char × List Char) :=
      match cs2 with
      | '.' :: rest =>
        let fpSplit := rest.span isDigit
        if fpSplit.1.isEmpty then none else some ('.' :: fpSplit.1, fpSplit.2)
      | _ => some ([], cs2)
    match fracStep with
    | none => none
    | some (fp, cs3) =>
      let expStep : Option (List Char × List Char) :=
        match cs3 with
        | e :: rest =>
          if e = 'e' ∨ e = 'E' then
            let signAndRest2 : List Char × List Char :=
              match rest with
              | '+' :: r => (['+'], r)
              | '-' :: r => (['-'], r)
              | _ => ([], rest)
            let epSplit := signAndRest2.2.span isDigit
            if epSplit.1.isEmpty then none
            else some (e :: (signAndRest2.1 ++ epSplit.1), epSplit.2)
          else some ([], cs3)
        | [] => some ([], cs3)
      match expStep with
      | none => none
      | some (ep, cs4) => some (String.mk (sign ++ ip ++ fp ++ ep), cs4)

mutual

/-- Parse one JSON value: the grammar accepted by `encoding/json`. -/
def parseValue : Nat → List Char → Option (JsonVal × List Char)
  | 0, _ => none
  | fuel + 1, cs =>
    match skipWs cs with
    | [] => none
    | c :: rest =>
      if c = quoteChar then
        (parseJString fuel rest).map (fun p => (.str p.1, p.2))
      else if c = lbraceChar then
        match skipWs rest with
        | c2 :: rest2 =>
          if c2 = rbraceChar then some (.obj [], rest2)
          else (parseMembers fuel (c2 :: rest2)).map (fun p => (.obj p.1, p.2))
        | [] => none
      else if c = '[' then
        match skipWs rest with
        | ']' :: rest2 => some (.arr [], rest2)
        | cs2 => (parseElems fuel cs2).map (fun p => (.arr p.1, p.2))
      else if c = 't' then
        match rest with
        | 'r' :: 'u' :: 'e' :: rest2 => some (.bool true, rest2)
        | _ => none
      else if c = 'f' then
        match rest with
        | 'a' :: 'l' :: 's' :: 'e' :: rest2 => some (.bool false, rest2)
        | _ => none
      else if c = 'n' then
        match rest with
        | 'u' :: 'l' :: 'l' :: rest2 => some (.null, rest2)
        | _ => none
      else
        (parseNumber (c :: rest)).map (fun p => (.num p.1, p.2))

/-- Parse the members of a JSON object after the opening brace (at least one
member present). -/
def parseMembers : Nat → List Char → Option (List (String × JsonVal) × List Char)
  | 0, _ => none
  | fuel + 1, cs =>
    match skipWs cs with
    | c :: rest =>
      if c = quoteChar then
        match parseJString fuel rest with
        | some (key, rest2) =>
          match skipWs rest2 with
          | ':' :: rest3 =>
            match parseValue fuel rest3 with
            | some (v, rest4) =>
              match skipWs rest4 with
              | c2 :: rest5 =>
                if c2 = rbraceChar then some ([(key, v)], rest5)
                else if c2 = ',' then
                  (parseMembers fuel rest5).map (fun p => ((key, v) :: p.1, p.2))
                else none
              | [] => none
            | none => none
          | _ => none
        | none => none
      else none
    | [] => none

/-- Parse the elements of a JSON array after the opening bracket (at least
one element present). -/
def parseElems : Nat → List Char → Option (List JsonVal × List Char)
  | 0, _ => none
  | fuel + 1, cs =>
    match parseValue fuel cs with
    | some (v, rest) =>
      match skipWs rest with
      | ']' :: rest2 => some ([v], rest2)
      | ',' :: rest2 => (parseElems fuel rest2).map (fun p => (v :: p.1, p.2))
      | _ => none
    | none => none

end

/-- Parse a whole JSON document: one value followed by nothing but
whitespace.  The fuel is generous for the nesting any realistic body can
reach; an under-fuelled parse returns `none` like a syntax error. -/
def parseJson (s : String) : Option JsonVal :=
  match parseValue (2 * s.length + 8) s.toList with
  | some (v, rest) => if (skipWs rest).isEmpty then some v else none
  | none => none

/-- ASCII-fold a string to lower case, for the case-insensitive field-name
match of `encoding/json`. -/
def asciiLower (s : String) : String :=
  String.mk (s.toList.map (fun c => if 'A' ≤ c ∧ c ≤ 'Z' then Char.ofNat (c.toNat + 32) else c))

/-- Model of `json.Unmarshal([]byte(result), &tokenResponse)` for the local
struct `TokenResponse { AccessToken string }` with tag `access_token` used by
`getToken`: an invalid document or a document of the wrong shape is an error;
`null` leaves the zero value; in an object, every key matching `access_token`
case-insensitively assigns the field in document order (a string value
assigns, `null` leaves the previous value, any other type is an error);
other keys are ignored. -/
def unmarshalTokenResponse (s : String) : Except String String :=
  match parseJson s with
  | none => Except.error "invalid JSON document"
  | some .null => Except.ok ""
  | some (.obj fields) =>
    fields.foldlM
      (fun acc kv =>
        if asciiLower kv.1 = "access_token" then
          match kv.2 with
          | .str v => Except.ok v
          | .null => Except.ok acc
          | _ => Except.error "cannot unmarshal value into field of type string"
        else Except.ok acc)
      ""
  | some _ => Except.error "cannot unmarshal value into Go struct TokenResponse"

/-- Result of `getToken`: the `(string, error)` pair returned to `Request`,
and the `doRequest` execution against the token endpoint. -/
structure GetTokenOut where
  result : String
  error : Option GoError
  call : DoRequestOut
deriving Repr, DecidableEq

/-- The fixed token endpoint of the provider. -/
def tokenEndpoint : String := "https://api.plan.toggl.com/api/v5/authenticate/token"

/-- `getToken` from the Go source: POST the OAuth2 password-grant form to the
fixed token endpoint with Basic authentication
`base64(clientId ":" clientSecret)`, then parse the response for
`access_token`: a transport or HTTP error is surfaced as
`("Couldn\x27t request for a new bearer token", err)`; an unparsable body as
`("Couldn\x27t parse authentication attempt response", err)`; an empty
`access_token` as `("", errors.New("access_token not found in response"))`;
otherwise the token is returned with a nil error. -/
def getToken (pa : togglPlanApi) (o : Nat → AttemptOutcome) : GetTokenOut :=
  let headers : List (String × String) :=
    [("Content-Type", "application/x-www-form-urlencoded")]
  let auth : authDetails :=
    { type := "Basic"
      credential := base64Encode (strBytes (pa.clientId ++ ":" ++ pa.clientSecret)) }
  let body := "grant_type=password&username=" ++ pa.username ++ "&password=" ++ pa.password
  let r := doRequest pa tokenEndpoint "POST" body headers (some auth) o
  match r.error with
  | none =>
    match unmarshalTokenResponse r.result with
    | Except.error m =>
      { result := "Couldn\x27t parse authentication attempt response"
        error := some (.jsonErr m), call := r }
    | Except.ok tok =>
      if tok = "" then
        { result := "", error := some (.simple "access_token not found in response"), call := r }
      else
        { result := tok, error := none, call := r }
  | some e =>
    { result := "Couldn\x27t request for a new bearer token", error := some e, call := r }

/-- `GetToken` from the Go source: the cached bearer token of the client. -/
def GetToken (pa : togglPlanApi) : String := pa.bearerToken

/-- The default header map built inside `Request`. -/
def defaultHeaders : List (String × String) := [("Content-Type", "application/json")]

/-- The tail of `Request` after the token is available: merge the
caller-supplied headers over the defaults and delegate to `doRequest` with
`Bearer` authorization from the cached token. -/
def requestBody (pa : togglPlanApi) (url method : String) (body : String)
    (headers : List (String × String)) (o : Nat → AttemptOutcome) : DoRequestOut :=
  let finalHeaders := mergeMaps defaultHeaders headers
  let auth : authDetails := { type := "Bearer", credential := pa.bearerToken }
  doRequest pa url method body finalHeaders (some auth) o

/-- Result of `Request`: the `(string, error)` pair, the client after the
call (`Request` mutates the client in place in Go), and the effect trace:
how many token fetches ran, the token-fetch execution, and the execution
against the target URL, when they happened. -/
structure RequestOut where
  result : String
  error : Option GoError
  client : togglPlanApi
  tokenFetches : Nat
  tokenCall : Option GetTokenOut
  mainCall : Option DoRequestOut
deriving Repr, DecidableEq

/-- `Request` from the Go source: with no cached bearer token, fetch one
first — on failure return `("Couldn\x27t authenticate", err)` at once with the
client unchanged, on success cache it on the client; then send the request
via `requestBody` with the cached token. -/
def Request (pa : togglPlanApi) (url method : String) (body : String)
    (headers : List (String × String))
    (tokenO mainO : Nat → AttemptOutcome) : RequestOut :=
  if pa.bearerToken = "" then
    let g := getToken pa tokenO
    match g.error with
    | none =>
      let pa2 := { pa with bearerToken := g.result }
      let r := requestBody pa2 url method body headers mainO
      { result := r.result, error := r.error, client := pa2
        tokenFetches := 1, tokenCall := some g, mainCall := some r }
    | some e =>
      { result := "Couldn\x27t authenticate", error := some e, client := pa
        tokenFetches := 1, tokenCall := some g, mainCall := none }
  else
    let r := requestBody pa url method body headers mainO
    { result := r.result, error := r.error, client := pa
      tokenFetches := 0, tokenCall := none, mainCall := some r }

/-- A demonstration client with a cached bearer token. -/
def paDemo : togglPlanApi := New "user" "pass" "cid" "csecret" "tok"

/-- A demonstration client with no cached bearer token. -/
def paNoTok : togglPlanApi := New "user" "pass" "cid" "csecret" ""

/-- A demonstration target URL. -/
def demoUrl : String := "https://api.plan.toggl.com/api/v5/me"

/-- Attempt oracle delivering 500, 500, then 200 with body `ok`. -/
def oracle500x2then200 : Nat → AttemptOutcome :=
  fun i => if i < 2 then .response 500 "" else .response 200 "ok"

/-- Attempt oracle delivering 500 on every attempt. -/
def oracleAll500 : Nat → AttemptOutcome := fun _ => .response 500 ""

/-- Attempt oracle delivering 401 on every attempt. -/
def oracle401 : Nat → AttemptOutcome := fun _ => .response 401 "denied"

/-- Attempt oracle delivering 404 on every attempt. -/
def oracle404 : Nat → AttemptOutcome := fun _ => .response 404 ""

/-- Attempt oracle delivering a 200 with the given body on every attempt. -/
def oracle200 (body : String) : Nat → AttemptOutcome := fun _ => .response 200 body

/-- A token-endpoint body carrying `access_token = "abc"`. -/
def tokenBodyOk : String := "\x7b\"access_token\":\"abc\"\x7d"

/-- A token-endpoint body that is an empty JSON object. -/
def tokenBodyEmpty : String := "\x7b\x7d"

/-- Outcome of one physical HTTP attempt together with the `Retry-After`
header of the response, when the response carries one (the raw first value
of the header): the one response header the configured loop reads, namely
by `retryablehttp.DefaultBackoff` on 429 and 503 responses.  `AttemptOutcome`
is the headerless view of this type. -/
inductive AttemptOutcomeH where
  | netErr (msg : String)
  | response (status : Nat) (retryAfter : Option String) (body : String)
deriving Repr, DecidableEq

/-- Drop the `Retry-After` header, leaving the headerless outcome. -/
def forgetHeader : AttemptOutcomeH → AttemptOutcome
  | .netErr m => .netErr m
  | .response st _ b => .response st b

/-- The view of the response that `Client.Do` passes to the `Backoff`
callback: nil after a network error, otherwise the status code and the
`Retry-After` header. -/
def respView : AttemptOutcomeH → Option (Nat × Option String)
  | .netErr _ => none
  | .response st ra _ => some (st, ra)

/-- Go `strconv.ParseInt(s, 10, 64)`: an optional sign followed by at least
one decimal digit, with the value in the int64 range; `none` models a
non-nil error (syntax or range). -/
def parseInt64 (s : String) : Option Int :=
  let cs := s.toList
  let signAndDigits : Int × List Char :=
    match cs with
    | '+' :: rest => (1, rest)
    | '-' :: rest => (-1, rest)
    | _ => (1, cs)
  match signAndDigits.2 with
  | [] => none
  | ds =>
    if ds.all isDigit then
      let n : Nat := ds.foldl (fun acc c => acc * 10 + (c.toNat - 48)) 0
      let v : Int := signAndDigits.1 * n
      if v < -(2 ^ 63) ∨ 2 ^ 63 - 1 < v then none else some v
    else none

/-- Wrap an integer into the int64 range, as Go two-complement arithmetic
does on overflow. -/
def int64Wrap (x : Int) : Int := (x + 2 ^ 63) % 2 ^ 64 - 2 ^ 63

/-- The `Retry-After` override of `retryablehttp.DefaultBackoff`: on a 429
or 503 response carrying a `Retry-After` header whose first value parses as
a decimal integer, the sleep is that many seconds —
`time.Second * time.Duration(sleep)` in int64 arithmetic — with no clamping
to the `RetryWaitMin`/`RetryWaitMax` bounds.  `none` when the override does
not apply. -/
def retryAfterSleep (resp : Option (Nat × Option String)) : Option Int :=
  match resp with
  | some (st, some ra) =>
    if st = 429 ∨ st = 503 then
      match parseInt64 ra with
      | some sleep => some (int64Wrap (sleep * (second : Int)))
      | none => none
    else none
  | _ => none

/-- `retryablehttp.DefaultBackoff` in full, the `Backoff` callback installed
by `retryablehttp.NewClient()` and left in place by `doRequest`: the
`Retry-After` override when it applies, otherwise the exponential arm
`defaultBackoff`.  Durations are signed nanosecond counts, as Go
`time.Duration` is int64 (a negative `Retry-After` value gives a negative
duration, on which the retry timer fires immediately). -/
def defaultBackoffFull (mn mx attemptNum : Nat) (resp : Option (Nat × Option String)) : Int :=
  match retryAfterSleep resp with
  | some w => w
  | none => (defaultBackoff mn mx attemptNum : Int)

/-- Result of the retryablehttp loop on header-carrying outcomes: like
`ClientDoOut`, with signed waits, since a `Retry-After` sleep can leave the
`RetryWaitMin`/`RetryWaitMax` range in either direction. -/
structure ClientDoHOut where
  result : DoResult
  attempts : Nat
  waits : List Int
deriving Repr, DecidableEq

/-- Exit of the loop at a non-retryable header-carrying outcome, as
`deliver`. -/
def deliverH (outcome : AttemptOutcomeH) (i : Nat) : ClientDoHOut :=
  match outcome with
  | .response st _ b => { result := .ok st b, attempts := i + 1, waits := [] }
  | .netErr e => { result := .error (.net e), attempts := i + 1, waits := [] }

/-- The retryablehttp `Client.Do` loop over header-carrying outcomes: as
`clientDoAux`, but the backoff wait is computed by the full
`DefaultBackoff` from the response of the failed attempt, as the Go loop
passes it to the `Backoff` callback. -/
def clientDoAuxH (o : Nat → AttemptOutcomeH) : Nat → Nat → ClientDoHOut
  | 0, i =>
    if checkRetry (forgetHeader (o i)) then
      { result := .error (.giveUp (i + 1)), attempts := i + 1, waits := [] }
    else deliverH (o i) i
  | r + 1, i =>
    if checkRetry (forgetHeader (o i)) then
      let rest := clientDoAuxH o r (i + 1)
      { result := rest.result
        attempts := rest.attempts
        waits := defaultBackoffFull retryWaitMin retryWaitMax i (respView (o i)) :: rest.waits }
    else deliverH (o i) i

/-- `client.Do(req)` over header-carrying outcomes. -/
def clientDoH (o : Nat → AttemptOutcomeH) : ClientDoHOut :=
  clientDoAuxH o retryMax 0

/-- Header-carrying attempt oracle delivering 500 without a `Retry-After`
header on every attempt. -/
def oracleAll500H : Nat → AttemptOutcomeH := fun _ => .response 500 none ""

/-- Header-carrying attempt oracle delivering a 429 with `Retry-After: 120`
and then a 200. -/
def oracle429RetryAfter : Nat → AttemptOutcomeH :=
  fun i => if i = 0 then .response 429 (some "120") "" else .response 200 none "ok"

/-- Header-carrying attempt oracle delivering a 503 with `Retry-After: 0`
and then a 200. -/
def oracle503RetryAfter0 : Nat → AttemptOutcomeH :=
  fun i => if i = 0 then .response 503 (some "0") "" else .response 200 none "ok"

end Togglplanapi

namespace Togglplanapi

theorem deliver_attempts (out : AttemptOutcome) (i : Nat) : (deliver out i).attempts = i + 1 := by
  cases out <;> rfl

theorem deliver_waits (out : AttemptOutcome) (i : Nat) : (deliver out i).waits = [] := by
  cases out <;> rfl

theorem clientDoAux_attempts_lb (o : Nat → AttemptOutcome) (remain i : Nat) :
    i + 1 ≤ (clientDoAux o remain i).attempts := by
  induction remain generalizing i with
  | zero =>
    simp only [clientDoAux]
    split
    · simp
    · simp [deliver_attempts]
  | succ r ih =>
    simp only [clientDoAux]
    split
    · have h := ih (i + 1)
      simp only []
      omega
    · simp [deliver_attempts]

theorem clientDoAux_attempts_ub (o : Nat → AttemptOutcome) (remain i : Nat) :
    (clientDoAux o remain i).attempts ≤ i + remain + 1 := by
  induction remain generalizing i with
  | zero =>
    simp only [clientDoAux]
    split
    · simp
    · simp [deliver_attempts]
  | succ r ih =>
    simp only [clientDoAux]
    split
    · have h := ih (i + 1)
      simp only []
      omega
    · simp [deliver_attempts]

theorem clientDoAux_retried (o : Nat → AttemptOutcome) (remain i j : Nat)
    (hij : i ≤ j) (hj : j + 1 < (clientDoAux o remain i).attempts) :
    checkRetry (o j) = true := by
  induction remain generalizing i with
  | zero =>
    exfalso
    simp only [clientDoAux] at hj
    revert hj
    split
    · simp; omega
    · simp [deliver_attempts]; omega
  | succ r ih =>
    simp only [clientDoAux] at hj
    revert hj
    split
    · intro hj
      rcases Nat.eq_or_lt_of_le hij with rfl | hlt
      · assumption
      · exact ih (i + 1) hlt hj
    · intro hj
      exfalso
      simp [deliver_attempts] at hj
      omega

theorem clientDoAux_last (o : Nat → AttemptOutcome) (remain i : Nat) :
    (checkRetry (o ((clientDoAux o remain i).attempts - 1)) = false ∧
       (clientDoAux o remain i).result =
         (deliver (o ((clientDoAux o remain i).attempts - 1))
           ((clientDoAux o remain i).attempts - 1)).result) ∨
    ((clientDoAux o remain i).attempts = i + remain + 1 ∧
       checkRetry (o (i + remain)) = true ∧
       (clientDoAux o remain i).result =
         .error (.giveUp ((clientDoAux o remain i).attempts))) := by
  induction remain generalizing i with
  | zero =>
    simp only [clientDoAux]
    split
    · right
      simp_all
    · left
      rename_i hc
      simp only [deliver_attempts, Nat.add_sub_cancel]
      exact ⟨Bool.eq_false_iff.mpr hc, trivial⟩
  | succ r ih =>
    simp only [clientDoAux]
    split
    · rename_i hc
      rcases ih (i + 1) with ⟨h1, h2⟩ | ⟨h1, h2, h3⟩
      · left
        simp only []
        exact ⟨h1, h2⟩
      · right
        refine ⟨by simp only []; omega, ?_, by simp only []; exact h3⟩
        have he : i + 1 + r = i + (r + 1) := by omega
        rwa [he] at h2
    · left
      rename_i hc
      simp only [deliver_attempts, Nat.add_sub_cancel]
      exact ⟨Bool.eq_false_iff.mpr hc, trivial⟩

theorem clientDoAux_waits (o : Nat → AttemptOutcome) (remain i : Nat) :
    (clientDoAux o remain i).waits =
      (List.range ((clientDoAux o remain i).attempts - 1 - i)).map
        (fun j => defaultBackoff retryWaitMin retryWaitMax (i + j)) := by
  induction remain generalizing i with
  | zero =>
    simp only [clientDoAux]
    split
    · simp
    · simp [deliver_attempts, deliver_waits]
  | succ r ih =>
    simp only [clientDoAux]
    split
    · have hlb := clientDoAux_attempts_lb o r (i + 1)
      have h := ih (i + 1)
      simp only []
      rw [h]
      have hn : (clientDoAux o r (i + 1)).attempts - 1 - i =
          ((clientDoAux o r (i + 1)).attempts - 1 - (i + 1)) + 1 := by omega
      rw [hn, List.range_succ_eq_map, List.map_cons, List.map_map]
      refine congrArg₂ List.cons (by simp) ?_
      refine List.map_congr_left fun j _ => ?_
      simp only [Function.comp_apply]
      exact congrArg (defaultBackoff retryWaitMin retryWaitMax) (by omega)
    · simp [deliver_attempts, deliver_waits]

theorem clientDoAux_401 (o : Nat → AttemptOutcome) (remain i : Nat) (b : String)
    (h : o i = .response 401 b) :
    clientDoAux o remain i = { result := .ok 401 b, attempts := i + 1, waits := [] } := by
  have hc : checkRetry (AttemptOutcome.response 401 b) = false := rfl
  cases remain <;> simp [clientDoAux, hc, h, deliver]

theorem mapGet_mapSet (m : List (String × String)) (k v q : String) :
    mapGet (mapSet m k v) q = if q = k then some v else mapGet m q := by
  by_cases h : q = k
  · subst h
    simp [mapGet, mapSet, List.find?]
  · simp only [mapGet, mapSet, List.find?]
    have hb : (k == q) = false := by
      simp only [beq_eq_false_iff_ne, ne_eq]
      exact fun he => h he.symm
    simp [hb, h]

theorem insertAll_eq (l acc : List (String × String)) :
    l.foldl (fun acc p => mapSet acc p.1 p.2) acc = l.reverse ++ acc := by
  induction l generalizing acc with
  | nil => simp
  | cons p t ih =>
    simp only [List.foldl_cons, List.reverse_cons, List.append_assoc]
    rw [ih]
    rfl

theorem mergeMaps_eq (m1 m2 : List (String × String)) :
    mergeMaps m1 m2 = m2.reverse ++ m1.reverse := by
  simp [mergeMaps, insertAll_eq]

theorem mapGet_append (l1 l2 : List (String × String)) (k : String) :
    mapGet (l1 ++ l2) k = ((mapGet l1 k).orElse fun _ => mapGet l2 k) := by
  induction l1 with
  | nil => simp [mapGet]
  | cons p t ih =>
    simp only [mapGet, List.cons_append, List.find?]
    by_cases h : (p.1 == k) = true
    · simp [h]
    · simp only [Bool.not_eq_true] at h
      simp only [h]
      exact ih

theorem mapGet_eq_none_of_not_mem (l : List (String × String)) (k : String)
    (h : k ∉ l.map Prod.fst) : mapGet l k = none := by
  induction l with
  | nil => rfl
  | cons p t ih =>
    simp only [List.map_cons, List.mem_cons, not_or] at h
    simp only [mapGet, List.find?]
    have hb : (p.1 == k) = false := by
      simp only [beq_eq_false_iff_ne, ne_eq]
      exact fun he => h.1 he.symm
    simp only [hb]
    exact ih h.2

theorem mapGet_reverse_of_nodup (l : List (String × String)) (k : String)
    (h : (l.map Prod.fst).Nodup) : mapGet l.reverse k = mapGet l k := by
  induction l with
  | nil => rfl
  | cons p t ih =>
    simp only [List.map_cons, List.nodup_cons] at h
    rw [List.reverse_cons, mapGet_append]
    by_cases hk : p.1 = k
    · subst hk
      have ht : mapGet t p.1 = none := mapGet_eq_none_of_not_mem t p.1 h.1
      have htr : mapGet t.reverse p.1 = none := by
        refine mapGet_eq_none_of_not_mem t.reverse p.1 ?_
        rw [List.map_reverse]
        simpa using h.1
      rw [htr]
      simp only [mapGet, List.find?, Option.orElse]
      simp [ht]
    · have hone : mapGet [p] k = none := by
        simp only [mapGet, List.find?]
        have hb : (p.1 == k) = false := by
          simp only [beq_eq_false_iff_ne, ne_eq]
          exact hk
        simp [hb]
      rw [hone, ih h.2]
      simp only [mapGet, List.find?]
      have hb : (p.1 == k) = false := by
        simp only [beq_eq_false_iff_ne, ne_eq]
        exact hk
      simp [hb]

theorem doRequest_frame (pa : togglPlanApi) (url method bdy : String)
    (hs : List (String × String)) (a : authDetails) (o : Nat → AttemptOutcome) :
    (doRequest pa url method bdy hs (some a) o).sent =
      { method := method, url := url, body := bdy
        headers := mapSet hs "Authorization" (a.type ++ " " ++ a.credential) } ∧
    (doRequest pa url method bdy hs (some a) o).attempts = (clientDo o).attempts ∧
    (doRequest pa url method bdy hs (some a) o).waits = (clientDo o).waits := by
  simp only [doRequest]
  split
  · refine ⟨?_, ?_, ?_⟩ <;> trivial
  · split
    · refine ⟨?_, ?_, ?_⟩ <;> trivial
    · split
      · refine ⟨?_, ?_, ?_⟩ <;> trivial
      · refine ⟨?_, ?_, ?_⟩ <;> trivial

theorem doRequest_error_case (pa : togglPlanApi) (url method bdy : String)
    (hs : List (String × String)) (auth : Option authDetails) (o : Nat → AttemptOutcome)
    (e : GoError) (h : (clientDo o).result = .error e) :
    (doRequest pa url method bdy hs auth o).result = "Error running request" ∧
    (doRequest pa url method bdy hs auth o).error = some e := by
  simp only [doRequest, h]
  refine ⟨?_, ?_⟩ <;> trivial

theorem doRequest_ok_401 (pa : togglPlanApi) (url method bdy : String)
    (hs : List (String × String)) (auth : Option authDetails) (o : Nat → AttemptOutcome)
    (b : String) (h : (clientDo o).result = .ok 401 b) :
    (doRequest pa url method bdy hs auth o).result = "Unauthorized" ∧
    (doRequest pa url method bdy hs auth o).error = some (.simple "401") := by
  simp only [doRequest, h]
  refine ⟨?_, ?_⟩ <;> trivial

theorem doRequest_ok_status (pa : togglPlanApi) (url method bdy : String)
    (hs : List (String × String)) (auth : Option authDetails) (o : Nat → AttemptOutcome)
    (st : Nat) (b : String) (h : (clientDo o).result = .ok st b)
    (h2 : st < 200 ∨ 300 ≤ st) (h3 : st ≠ 401) :
    (doRequest pa url method bdy hs auth o).result = toString st ∧
    (doRequest pa url method bdy hs auth o).error = some (.simple (statusText st)) := by
  simp only [doRequest, h]
  rw [if_neg h3, if_pos h2]
  refine ⟨?_, ?_⟩ <;> trivial

theorem doRequest_ok_2xx (pa : togglPlanApi) (url method bdy : String)
    (hs : List (String × String)) (auth : Option authDetails) (o : Nat → AttemptOutcome)
    (st : Nat) (b : String) (h : (clientDo o).result = .ok st b)
    (h2 : 200 ≤ st ∧ st < 300) :
    (doRequest pa url method bdy hs auth o).result = b ∧
    (doRequest pa url method bdy hs auth o).error = none := by
  simp only [doRequest, h]
  rw [if_neg (by omega : ¬ st = 401), if_neg (by omega : ¬ (st < 200 ∨ 300 ≤ st))]
  refine ⟨?_, ?_⟩ <;> trivial

theorem getToken_call (pa : togglPlanApi) (o : Nat → AttemptOutcome) :
    (getToken pa o).call = doRequest pa tokenEndpoint "POST"
      ("grant_type=password&username=" ++ pa.username ++ "&password=" ++ pa.password)
      [("Content-Type", "application/x-www-form-urlencoded")]
      (some { type := "Basic"
              credential := base64Encode (strBytes (pa.clientId ++ ":" ++ pa.clientSecret)) }) o := by
  simp only [getToken]
  split
  · split
    · rfl
    · split <;> rfl
  · rfl

theorem getToken_success_ne_empty (pa : togglPlanApi) (o : Nat → AttemptOutcome) :
    (getToken pa o).error = none → (getToken pa o).result ≠ "" := by
  simp only [getToken]
  split
  · split
    · simp
    · split
      · simp
      · rename_i hne
        exact fun _ => hne
  · simp

theorem getToken_error_of_bad_body (pa : togglPlanApi) (o : Nat → AttemptOutcome)
    (st : Nat) (b m : String)
    (h1 : (clientDo o).result = .ok st b) (h2 : 200 ≤ st ∧ st < 300)
    (h3 : unmarshalTokenResponse b = Except.error m ∨ unmarshalTokenResponse b = Except.ok "") :
    (getToken pa o).error ≠ none := by
  have hdo := doRequest_ok_2xx pa tokenEndpoint "POST"
    ("grant_type=password&username=" ++ pa.username ++ "&password=" ++ pa.password)
    [("Content-Type", "application/x-www-form-urlencoded")]
    (some { type := "Basic"
            credential := base64Encode (strBytes (pa.clientId ++ ":" ++ pa.clientSecret)) })
    o st b h1 h2
  simp only [getToken, hdo.1, hdo.2]
  rcases h3 with h3 | h3 <;> simp [h3]

theorem checkRetry_response_iff (st : Nat) (b : String) :
    checkRetry (.response st b) = true ↔ (st = 429 ∨ (500 ≤ st ∧ st ≠ 501)) := by
  constructor
  · intro h
    simp only [checkRetry] at h
    split at h
    · rename_i h1
      exact Or.inl h1
    · split at h
      · cases h
      · split at h
        · rename_i h3
          exact Or.inr h3
        · cases h
  · intro h
    simp only [checkRetry]
    split
    · rfl
    · rename_i h1
      split
      · rename_i h2
        subst h2
        rcases h with h | ⟨h4, h5⟩
        · exact absurd h h1
        · omega
      · split
        · rfl
        · rename_i h3
          rcases h with h | h
          · exact absurd h h1
          · exact absurd h h3

theorem doRequest_attempts_waits (pa : togglPlanApi) (url method bdy : String)
    (hs : List (String × String)) (auth : Option authDetails) (o : Nat → AttemptOutcome) :
    (doRequest pa url method bdy hs auth o).attempts = (clientDo o).attempts ∧
    (doRequest pa url method bdy hs auth o).waits = (clientDo o).waits := by
  simp only [doRequest]
  split
  · refine ⟨?_, ?_⟩ <;> trivial
  · split
    · refine ⟨?_, ?_⟩ <;> trivial
    · split
      · refine ⟨?_, ?_⟩ <;> trivial
      · refine ⟨?_, ?_⟩ <;> trivial

theorem mergeMaps_default_lookup (hs : List (String × String)) (k : String)
    (hnd : (hs.map Prod.fst).Nodup) :
    mapGet (mergeMaps defaultHeaders hs) k =
      ((mapGet hs k).orElse fun _ => mapGet defaultHeaders k) := by
  rw [mergeMaps_eq, mapGet_append, mapGet_reverse_of_nodup hs k hnd]
  rfl

theorem requestBody_auth (pa : togglPlanApi) (url method bdy : String)
    (hs : List (String × String)) (o : Nat → AttemptOutcome) :
    mapGet (requestBody pa url method bdy hs o).sent.headers "Authorization" =
      some ("Bearer " ++ pa.bearerToken) := by
  have hf := (doRequest_frame pa url method bdy (mergeMaps defaultHeaders hs)
    { type := "Bearer", credential := pa.bearerToken } o).1
  simp only [requestBody]
  simp only [hf]
  rw [mapGet_mapSet, if_pos rfl]
  rfl

theorem requestBody_headers (pa : togglPlanApi) (url method bdy : String)
    (hs : List (String × String)) (o : Nat → AttemptOutcome) (k : String)
    (hk : k ≠ "Authorization") :
    mapGet (requestBody pa url method bdy hs o).sent.headers k =
      mapGet (mergeMaps defaultHeaders hs) k := by
  have hf := (doRequest_frame pa url method bdy (mergeMaps defaultHeaders hs)
    { type := "Bearer", credential := pa.bearerToken } o).1
  simp only [requestBody]
  simp only [hf]
  rw [mapGet_mapSet, if_neg hk]

theorem Request_cached (pa : togglPlanApi) (url method bdy : String)
    (hs : List (String × String)) (tokenO mainO : Nat → AttemptOutcome)
    (h : pa.bearerToken ≠ "") :
    Request pa url method bdy hs tokenO mainO =
      { result := (requestBody pa url method bdy hs mainO).result
        error := (requestBody pa url method bdy hs mainO).error
        client := pa, tokenFetches := 0, tokenCall := none
        mainCall := some (requestBody pa url method bdy hs mainO) } := by
  simp only [Request]
  rw [if_neg h]

theorem Request_noToken_success (pa : togglPlanApi) (url method bdy : String)
    (hs : List (String × String)) (tokenO mainO : Nat → AttemptOutcome)
    (h : pa.bearerToken = "") (hg : (getToken pa tokenO).error = none) :
    Request pa url method bdy hs tokenO mainO =
      { result := (requestBody { pa with bearerToken := (getToken pa tokenO).result }
          url method bdy hs mainO).result
        error := (requestBody { pa with bearerToken := (getToken pa tokenO).result }
          url method bdy hs mainO).error
        client := { pa with bearerToken := (getToken pa tokenO).result }
        tokenFetches := 1
        tokenCall := some (getToken pa tokenO)
        mainCall := some (requestBody { pa with bearerToken := (getToken pa tokenO).result }
          url method bdy hs mainO) } := by
  simp only [Request]
  rw [if_pos h]
  simp only [hg]

theorem Request_noToken_failure (pa : togglPlanApi) (url method bdy : String)
    (hs : List (String × String)) (tokenO mainO : Nat → AttemptOutcome)
    (h : pa.bearerToken = "") (e : GoError) (hg : (getToken pa tokenO).error = some e) :
    Request pa url method bdy hs tokenO mainO =
      { result := "Couldn\x27t authenticate", error := some e, client := pa
        tokenFetches := 1, tokenCall := some (getToken pa tokenO), mainCall := none } := by
  simp only [Request]
  rw [if_pos h]
  simp only [hg]

/-- C1, counterexample to the claim as stated: the claim says at most 5
attempts are made in total and that an all-500 sequence fails after exactly 5
attempts; on the code (RetryMax = 5 retries on top of the initial attempt)
an all-500 sequence makes 6 attempts. -/
theorem claim1_counterexample :
    (clientDo oracleAll500).attempts = 6 ∧ ¬ (clientDo oracleAll500).attempts ≤ 5 := by
  decide

/-- C1 (amended): for every request executed by the retrying executor, a
retry occurs exactly when the attempt ends in a network error, an HTTP 429,
or an HTTP 5xx other than 501, and at most 6 attempts are made in total (the
initial attempt plus up to 5 retries): every attempt followed by another one
satisfied the retry condition, and the final attempt either failed the retry
condition or was the sixth; a response sequence [500, 500, 200] results in
exactly 2 retries followed by a successful result, and a sequence of all-500
responses yields a terminal failure after exactly 6 attempts. -/
theorem claim1_theorem (o : Nat → AttemptOutcome) :
    (∀ e, checkRetry (.netErr e) = true) ∧
    (∀ st b, st ≤ 599 →
      (checkRetry (.response st b) = true ↔ (st = 429 ∨ (500 ≤ st ∧ st ≠ 501)))) ∧
    (clientDo o).attempts ≤ 6 ∧
    (∀ j, j + 1 < (clientDo o).attempts → checkRetry (o j) = true) ∧
    (checkRetry (o ((clientDo o).attempts - 1)) = false ∨ (clientDo o).attempts = 6) ∧
    (doRequest paDemo demoUrl "GET" "" [] none oracle500x2then200).result = "ok" ∧
    (doRequest paDemo demoUrl "GET" "" [] none oracle500x2then200).error = none ∧
    (doRequest paDemo demoUrl "GET" "" [] none oracle500x2then200).attempts = 3 ∧
    (doRequest paDemo demoUrl "GET" "" [] none oracleAll500).result = "Error running request" ∧
    (doRequest paDemo demoUrl "GET" "" [] none oracleAll500).error = some (.giveUp 6) ∧
    (doRequest paDemo demoUrl "GET" "" [] none oracleAll500).attempts = 6 := by
  refine ⟨fun e => rfl, fun st b _ => checkRetry_response_iff st b, ?_, ?_, ?_,
    by decide, by decide, by decide, by decide, by decide, by decide⟩
  · simpa using clientDoAux_attempts_ub o retryMax 0
  · intro j hj
    exact clientDoAux_retried o retryMax 0 j (Nat.zero_le j) hj
  · rcases clientDoAux_last o retryMax 0 with ⟨h1, _⟩ | ⟨h1, _, _⟩
    · exact Or.inl h1
    · exact Or.inr h1

/-- C1, witness: the general conjuncts of the amended theorem applied at
status 502 and at the all-500 oracle. -/
theorem claim1_witness :
    checkRetry (AttemptOutcome.response 502 "") = true ∧
    (clientDo oracleAll500).attempts ≤ 6 ∧
    checkRetry (oracleAll500 0) = true := by
  have h := claim1_theorem oracleAll500
  exact ⟨(h.2.1 502 "" (by decide)).mpr (by decide), h.2.2.1,
    h.2.2.2.1 0 (by decide)⟩

/-- C2: a 401 response is never retried: the retry predicate rejects it, the
loop stops on it at any point with any remaining budget, and the executor
returns the fixed string Unauthorized with the distinguished error
errors.New("401") after exactly one attempt when the first response is a
401. -/
theorem claim2_theorem (o : Nat → AttemptOutcome) (pa : togglPlanApi)
    (url method bdy : String) (hs : List (String × String)) (auth : Option authDetails)
    (b : String) (h : o 0 = .response 401 b) :
    (∀ b2, checkRetry (.response 401 b2) = false) ∧
    (∀ remain i b2, o i = .response 401 b2 →
      clientDoAux o remain i = { result := .ok 401 b2, attempts := i + 1, waits := [] }) ∧
    (doRequest pa url method bdy hs auth o).result = "Unauthorized" ∧
    (doRequest pa url method bdy hs auth o).error = some (.simple "401") ∧
    (doRequest pa url method bdy hs auth o).attempts = 1 := by
  have hcd : clientDo o = { result := .ok 401 b, attempts := 1, waits := [] } :=
    clientDoAux_401 o retryMax 0 b h
  have h401 := doRequest_ok_401 pa url method bdy hs auth o b (by rw [hcd])
  refine ⟨fun b2 => rfl, fun remain i b2 hi => clientDoAux_401 o remain i b2 hi,
    h401.1, h401.2, ?_⟩
  rw [(doRequest_attempts_waits pa url method bdy hs auth o).1, hcd]

/-- C2, witness: the theorem applied to the all-401 oracle. -/
theorem claim2_witness :
    (doRequest paDemo demoUrl "GET" "" [] none oracle401).result = "Unauthorized" ∧
    (doRequest paDemo demoUrl "GET" "" [] none oracle401).error =
      some (GoError.simple "401") ∧
    (doRequest paDemo demoUrl "GET" "" [] none oracle401).attempts = 1 := by
  have h := claim2_theorem oracle401 paDemo demoUrl "GET" "" [] none "denied" rfl
  exact ⟨h.2.2.1, h.2.2.2.1, h.2.2.2.2⟩

/-- C8, counterexample to the claim as stated: a 5xx that remains after the
retry budget is exhausted does not produce the status code as the result
string; the executor returns "Error running request" with the giving-up
error of the retrying client instead. -/
theorem claim8_counterexample :
    (doRequest paDemo demoUrl "GET" "" [] none oracleAll500).result = "Error running request" ∧
    (doRequest paDemo demoUrl "GET" "" [] none oracleAll500).result ≠ "500" ∧
    (doRequest paDemo demoUrl "GET" "" [] none oracleAll500).error ≠
      some (GoError.simple (statusText 500)) := by
  decide

/-- C8 (amended): for every delivered terminal response (one the retry
policy does not retry) whose status is outside 200..299 and is not 401, the
executor returns the numeric status code rendered as the result string
together with an error carrying the standard status text for that code; a
5xx that remains after the retry budget is exhausted is not delivered: that
case returns "Error running request" together with the terminal error of the
retrying client. -/
theorem claim8_theorem (pa : togglPlanApi) (url method bdy : String)
    (hs : List (String × String)) (auth : Option authDetails) (o : Nat → AttemptOutcome)
    (st : Nat) (b : String) :
    ((clientDo o).result = .ok st b → ¬ (200 ≤ st ∧ st < 300) → st ≠ 401 →
      (doRequest pa url method bdy hs auth o).result = toString st ∧
      (doRequest pa url method bdy hs auth o).error = some (.simple (statusText st))) ∧
    (∀ e, (clientDo o).result = .error e →
      (doRequest pa url method bdy hs auth o).result = "Error running request" ∧
      (doRequest pa url method bdy hs auth o).error = some e) := by
  constructor
  · intro h hn h401
    exact doRequest_ok_status pa url method bdy hs auth o st b h (by omega) h401
  · intro e he
    exact doRequest_error_case pa url method bdy hs auth o e he

/-- C8, witness: the amended theorem applied to a delivered 404. -/
theorem claim8_witness :
    (doRequest paDemo demoUrl "GET" "" [] none oracle404).result = "404" ∧
    (doRequest paDemo demoUrl "GET" "" [] none oracle404).error =
      some (GoError.simple "Not Found") := by
  have h := (claim8_theorem paDemo demoUrl "GET" "" [] none oracle404 404 "").1
    (by decide) (by decide) (by decide)
  exact ⟨h.1, h.2⟩

theorem defaultBackoff_eq_min (j : Nat) :
    defaultBackoff retryWaitMin retryWaitMax j = min (2 ^ j * second) (30 * second) := by
  simp only [defaultBackoff, retryWaitMin, retryWaitMax, one_mul]
  split
  · rename_i hgt
    exact (min_eq_right (le_of_lt hgt)).symm
  · rename_i hgt
    exact (min_eq_left (Nat.le_of_not_lt fun hlt => hgt hlt)).symm

theorem defaultBackoff_bounds (j : Nat) :
    second ≤ defaultBackoff retryWaitMin retryWaitMax j ∧
    defaultBackoff retryWaitMin retryWaitMax j ≤ 30 * second := by
  rw [defaultBackoff_eq_min]
  constructor
  · refine le_min ?_ ?_
    · exact Nat.le_mul_of_pos_left second (Nat.pos_pow_of_pos j (by norm_num))
    · exact Nat.le_mul_of_pos_left second (by norm_num)
  · exact min_le_right _ _

theorem clientDoAuxH_forget (o : Nat → AttemptOutcomeH) (remain i : Nat) :
    (clientDoAuxH o remain i).result =
      (clientDoAux (fun j => forgetHeader (o j)) remain i).result ∧
    (clientDoAuxH o remain i).attempts =
      (clientDoAux (fun j => forgetHeader (o j)) remain i).attempts := by
  induction remain generalizing i with
  | zero =>
    simp only [clientDoAuxH, clientDoAux]
    split
    · exact ⟨rfl, rfl⟩
    · cases h : o i <;> simp [deliverH, deliver, forgetHeader, h]
  | succ r ih =>
    simp only [clientDoAuxH, clientDoAux]
    split
    · have h := ih (i + 1)
      exact ⟨h.1, h.2⟩
    · cases h : o i <;> simp [deliverH, deliver, forgetHeader, h]

theorem clientDoAuxH_waits (o : Nat → AttemptOutcomeH) (remain i : Nat) :
    (clientDoAuxH o remain i).waits =
      (List.range ((clientDoAuxH o remain i).attempts - 1 - i)).map
        (fun j => defaultBackoffFull retryWaitMin retryWaitMax (i + j) (respView (o (i + j)))) := by
  induction remain generalizing i with
  | zero =>
    simp only [clientDoAuxH]
    split
    · simp
    · cases h : o i <;> simp [deliverH]
  | succ r ih =>
    simp only [clientDoAuxH]
    split
    · have hlb : i + 1 + 1 ≤ (clientDoAuxH o r (i + 1)).attempts := by
        rw [(clientDoAuxH_forget o r (i + 1)).2]
        exact clientDoAux_attempts_lb _ r (i + 1)
      have h := ih (i + 1)
      simp only []
      rw [h]
      have hn : (clientDoAuxH o r (i + 1)).attempts - 1 - i =
          ((clientDoAuxH o r (i + 1)).attempts - 1 - (i + 1)) + 1 := by omega
      rw [hn, List.range_succ_eq_map, List.map_cons, List.map_map]
      refine congrArg₂ List.cons (by simp) ?_
      refine List.map_congr_left fun j _ => ?_
      simp only [Function.comp_apply]
      have he : i + 1 + j = i + (j + 1) := by omega
      rw [he]
    · cases h : o i <;> simp [deliverH]

/-- C9, counterexample to the claim as stated: the Backoff callback the code
runs is retryablehttp.DefaultBackoff, which on a retried 429 or 503 carrying
a Retry-After header sleeps the header value in seconds with no clamping: a
retried 429 with Retry-After 120 sleeps 120 seconds, above the claimed
30-second upper bound, and a retried 503 with Retry-After 0 sleeps 0
seconds, below the claimed 1-second lower bound. -/
theorem claim9_counterexample :
    (clientDoH oracle429RetryAfter).waits.getD 0 0 = 120 * (second : Int) ∧
    ¬ ((clientDoH oracle429RetryAfter).waits.getD 0 0 ≤ 30 * (second : Int)) ∧
    (clientDoH oracle503RetryAfter0).waits.getD 0 1 = 0 ∧
    ¬ ((second : Int) ≤ (clientDoH oracle503RetryAfter0).waits.getD 0 1) := by
  decide

/-- C9 (amended): the delay before each retried attempt is
DefaultBackoff of the attempt index and the response of the failed attempt;
whenever the response is not a 429 or 503 carrying a parsable Retry-After
header — so always on a network error, on a missing header, and on an
unparsable value — that delay is the exponential schedule min(2 to the
power of the attempt index, times 1 second, capped at 30 seconds), bounded
below by 1 second and above by 30 seconds; on a retried 429 or 503 whose
Retry-After value parses as the integer n, the delay is instead n seconds
(int64 arithmetic), unclamped by those bounds. -/
theorem claim9_theorem (o : Nat → AttemptOutcomeH) :
    (clientDoH o).waits =
      (List.range ((clientDoH o).attempts - 1)).map
        (fun j => defaultBackoffFull retryWaitMin retryWaitMax j (respView (o j))) ∧
    (∀ j resp,
      (∀ st ra, resp = some (st, ra) →
        (st ≠ 429 ∧ st ≠ 503) ∨ ra = none ∨ ∃ s, ra = some s ∧ parseInt64 s = none) →
      defaultBackoffFull retryWaitMin retryWaitMax j resp =
        ((min (2 ^ j * second) (30 * second) : Nat) : Int) ∧
      (second : Int) ≤ defaultBackoffFull retryWaitMin retryWaitMax j resp ∧
      defaultBackoffFull retryWaitMin retryWaitMax j resp ≤ ((30 * second : Nat) : Int)) ∧
    (∀ j st s n, (st = 429 ∨ st = 503) → parseInt64 s = some n →
      defaultBackoffFull retryWaitMin retryWaitMax j (some (st, some s)) =
        int64Wrap (n * (second : Int))) := by
  refine ⟨?_, ?_, ?_⟩
  · have hw := clientDoAuxH_waits o retryMax 0
    have hcd : clientDoH o = clientDoAuxH o retryMax 0 := rfl
    rw [hcd, hw]
    simp only [Nat.sub_zero, Nat.zero_add]
  · intro j resp hresp
    have hnone : retryAfterSleep resp = none := by
      rcases resp with _ | ⟨st, ra⟩
      · rfl
      · rcases ra with _ | sv
        · rfl
        · rcases hresp st (some sv) rfl with ⟨h4, h5⟩ | hra | ⟨s2, hs2, hp⟩
          · simp [retryAfterSleep, h4, h5]
          · exact Option.noConfusion hra
          · injection hs2 with hs2
            subst hs2
            simp only [retryAfterSleep, hp]
            split <;> rfl
    have hexp : defaultBackoffFull retryWaitMin retryWaitMax j resp =
        ((defaultBackoff retryWaitMin retryWaitMax j : Nat) : Int) := by
      simp [defaultBackoffFull, hnone]
    have hocc := defaultBackoff_bounds j
    rw [defaultBackoff_eq_min] at hocc
    rw [hexp, defaultBackoff_eq_min]
    exact ⟨rfl, by exact_mod_cast hocc.1, by exact_mod_cast hocc.2⟩
  · intro j st sv n hst hp
    simp only [defaultBackoffFull, retryAfterSleep]
    rw [if_pos hst]
    simp only [hp]

/-- C9, witness: the amended theorem applied to a no-header 500 (exponential
delay within the bounds) and to a 429 carrying Retry-After 120. -/
theorem claim9_witness :
    defaultBackoffFull retryWaitMin retryWaitMax 2 (some (500, none)) =
      ((min (2 ^ 2 * second) (30 * second) : Nat) : Int) ∧
    (second : Int) ≤ defaultBackoffFull retryWaitMin retryWaitMax 2 (some (500, none)) ∧
    defaultBackoffFull retryWaitMin retryWaitMax 0 (some (429, some "120")) =
      int64Wrap (120 * (second : Int)) := by
  have h := claim9_theorem oracleAll500H
  have h2 := h.2.1 2 (some (500, none)) (by
    intro st ra heq
    cases heq
    exact Or.inr (Or.inl rfl))
  exact ⟨h2.1, h2.2.1, h.2.2 0 429 "120" 120 (Or.inl rfl) (by decide)⟩

/-- C3: with an empty cached bearer token, Request performs the token fetch
first; on success the token is cached on the client, is non-empty, and the
target request is issued with it as Bearer authorization; on failure Request
returns at once with "Couldn\x27t authenticate" and the fetch error, the
client stays unchanged with an empty cached token, and no request to the
target URL is made. -/
theorem claim3_theorem (pa : togglPlanApi) (url method bdy : String)
    (hs : List (String × String)) (tokenO mainO : Nat → AttemptOutcome)
    (h : pa.bearerToken = "") :
    (Request pa url method bdy hs tokenO mainO).tokenFetches = 1 ∧
    (Request pa url method bdy hs tokenO mainO).tokenCall = some (getToken pa tokenO) ∧
    ((getToken pa tokenO).error = none →
      (Request pa url method bdy hs tokenO mainO).client.bearerToken =
        (getToken pa tokenO).result ∧
      (Request pa url method bdy hs tokenO mainO).client.bearerToken ≠ "" ∧
      (Request pa url method bdy hs tokenO mainO).mainCall =
        some (requestBody { pa with bearerToken := (getToken pa tokenO).result }
          url method bdy hs mainO) ∧
      ((Request pa url method bdy hs tokenO mainO).mainCall.map
          (fun r => mapGet r.sent.headers "Authorization")) =
        some (some ("Bearer " ++ (getToken pa tokenO).result))) ∧
    (∀ e, (getToken pa tokenO).error = some e →
      (Request pa url method bdy hs tokenO mainO).result = "Couldn\x27t authenticate" ∧
      (Request pa url method bdy hs tokenO mainO).error = some e ∧
      (Request pa url method bdy hs tokenO mainO).client = pa ∧
      (Request pa url method bdy hs tokenO mainO).client.bearerToken = "" ∧
      (Request pa url method bdy hs tokenO mainO).mainCall = none) := by
  cases hg : (getToken pa tokenO).error with
  | none =>
    have hr := Request_noToken_success pa url method bdy hs tokenO mainO h hg
    rw [hr]
    refine ⟨rfl, rfl, ?_, ?_⟩
    · intro _
      refine ⟨rfl, getToken_success_ne_empty pa tokenO hg, rfl, ?_⟩
      simp only [Option.map_some']
      rw [requestBody_auth]
    · intro e he
      simp at he
  | some e =>
    have hr := Request_noToken_failure pa url method bdy hs tokenO mainO h e hg
    rw [hr]
    refine ⟨rfl, rfl, ?_, ?_⟩
    · intro hn
      simp at hn
    · intro e2 he2
      injection he2 with he2
      subst he2
      exact ⟨rfl, rfl, rfl, h, rfl⟩

/-- C3, witness: the theorem applied to a client with no token, once with a
failing token fetch (empty JSON object, so no access_token) and once with a
successful one. -/
theorem claim3_witness :
    (Request paNoTok demoUrl "GET" "" [] (oracle200 tokenBodyEmpty) (oracle200 "ok")).mainCall
      = none ∧
    (Request paNoTok demoUrl "GET" "" [] (oracle200 tokenBodyOk) (oracle200 "ok")).client.bearerToken
      = "abc" := by
  have hfail := claim3_theorem paNoTok demoUrl "GET" "" [] (oracle200 tokenBodyEmpty)
    (oracle200 "ok") rfl
  have hok := claim3_theorem paNoTok demoUrl "GET" "" [] (oracle200 tokenBodyOk)
    (oracle200 "ok") rfl
  refine ⟨?_, ?_⟩
  · exact (hfail.2.2.2 (GoError.simple "access_token not found in response") (by rfl)).2.2.2.2
  · exact ((hok.2.2.1 (by rfl)).1).trans (by rfl)

/-- C4: the headers sent by Request are the merge of the default map
(Content-Type: application/json) with the caller map, the caller value
winning on every conflicting key and the default retained on absent keys;
on every key other than the Authorization header added by the executor, the
sent headers agree with that merge. -/
theorem claim4_theorem (hs : List (String × String)) (hnd : (hs.map Prod.fst).Nodup)
    (pa : togglPlanApi) (url method bdy : String) (mainO : Nat → AttemptOutcome)
    (k : String) :
    (∀ v, mapGet hs k = some v → mapGet (mergeMaps defaultHeaders hs) k = some v) ∧
    (mapGet hs k = none →
      mapGet (mergeMaps defaultHeaders hs) k = mapGet defaultHeaders k) ∧
    (mapGet hs "Content-Type" = none →
      mapGet (mergeMaps defaultHeaders hs) "Content-Type" = some "application/json") ∧
    (k ≠ "Authorization" →
      mapGet (requestBody pa url method bdy hs mainO).sent.headers k =
        mapGet (mergeMaps defaultHeaders hs) k) := by
  refine ⟨?_, ?_, ?_, ?_⟩
  · intro v hv
    rw [mergeMaps_default_lookup hs k hnd, hv]
    rfl
  · intro hv
    rw [mergeMaps_default_lookup hs k hnd, hv]
    rfl
  · intro hv
    rw [mergeMaps_default_lookup hs "Content-Type" hnd, hv]
    rfl
  · intro hk
    exact requestBody_headers pa url method bdy hs mainO k hk

/-- C4, witness: the merge applied to a caller map that overrides
Content-Type and to one that lacks it. -/
theorem claim4_witness :
    mapGet (mergeMaps defaultHeaders [("Content-Type", "text/plain")]) "Content-Type" =
      some "text/plain" ∧
    mapGet (mergeMaps defaultHeaders [("Accept", "text/html")]) "Content-Type" =
      some "application/json" := by
  have h1 := claim4_theorem [("Content-Type", "text/plain")] (by decide) paDemo demoUrl
    "GET" "" (oracle200 "ok") "Content-Type"
  have h2 := claim4_theorem [("Accept", "text/html")] (by decide) paDemo demoUrl
    "GET" "" (oracle200 "ok") "Content-Type"
  exact ⟨h1.1 "text/plain" rfl, h2.2.2.1 rfl⟩

/-- C5: a 2xx token-fetch response whose body is not valid JSON, or whose
JSON does not produce a non-empty access_token, makes getToken fail, and
Request on a client with an empty cached token consequently fails with
"Couldn\x27t authenticate", caches nothing (the token field stays empty), and
sends nothing to the target URL. -/
theorem claim5_theorem (pa : togglPlanApi) (url method bdy : String)
    (hs : List (String × String)) (tokenO mainO : Nat → AttemptOutcome)
    (st : Nat) (b m : String)
    (h : pa.bearerToken = "")
    (h1 : (clientDo tokenO).result = .ok st b) (h2 : 200 ≤ st ∧ st < 300)
    (h3 : unmarshalTokenResponse b = Except.error m ∨
      unmarshalTokenResponse b = Except.ok "") :
    (getToken pa tokenO).error ≠ none ∧
    (Request pa url method bdy hs tokenO mainO).result = "Couldn\x27t authenticate" ∧
    (Request pa url method bdy hs tokenO mainO).error ≠ none ∧
    (Request pa url method bdy hs tokenO mainO).client = pa ∧
    (Request pa url method bdy hs tokenO mainO).client.bearerToken = "" ∧
    (Request pa url method bdy hs tokenO mainO).mainCall = none := by
  have hge := getToken_error_of_bad_body pa tokenO st b m h1 h2 h3
  cases hg : (getToken pa tokenO).error with
  | none => exact absurd hg hge
  | some e =>
    have hr := Request_noToken_failure pa url method bdy hs tokenO mainO h e hg
    rw [hr]
    exact ⟨by simp, rfl, by simp, rfl, h, rfl⟩

/-- C5, witness: the theorem applied to a token body that is an empty JSON
object, hence a missing access_token field. -/
theorem claim5_witness :
    (getToken paNoTok (oracle200 tokenBodyEmpty)).error ≠ none ∧
    (Request paNoTok demoUrl "GET" "" [] (oracle200 tokenBodyEmpty)
      (oracle200 "ok")).client.bearerToken = "" := by
  have h := claim5_theorem paNoTok demoUrl "GET" "" [] (oracle200 tokenBodyEmpty)
    (oracle200 "ok") 200 tokenBodyEmpty "" rfl (by decide) (by decide) (Or.inr (by rfl))
  exact ⟨h.1, h.2.2.2.2.1⟩

/-- C6: getToken issues a POST to the fixed provider token endpoint with
Basic authorization whose credential is base64 of clientId, a colon, and
clientSecret, with Content-Type application/x-www-form-urlencoded, and with
the form-encoded password-grant body carrying the username and password of
the client. -/
theorem claim6_theorem (pa : togglPlanApi) (o : Nat → AttemptOutcome) :
    (getToken pa o).call.sent.method = "POST" ∧
    (getToken pa o).call.sent.url =
      "https://api.plan.toggl.com/api/v5/authenticate/token" ∧
    (getToken pa o).call.sent.body =
      "grant_type=password&username=" ++ pa.username ++ "&password=" ++ pa.password ∧
    mapGet (getToken pa o).call.sent.headers "Authorization" =
      some ("Basic " ++ base64Encode (strBytes (pa.clientId ++ ":" ++ pa.clientSecret))) ∧
    mapGet (getToken pa o).call.sent.headers "Content-Type" =
      some "application/x-www-form-urlencoded" := by
  have hc := getToken_call pa o
  have hf := (doRequest_frame pa tokenEndpoint "POST"
    ("grant_type=password&username=" ++ pa.username ++ "&password=" ++ pa.password)
    [("Content-Type", "application/x-www-form-urlencoded")]
    { type := "Basic"
      credential := base64Encode (strBytes (pa.clientId ++ ":" ++ pa.clientSecret)) } o).1
  rw [hc]
  simp only [hf]
  refine ⟨by trivial, by trivial, by trivial, ?_, ?_⟩
  · rw [mapGet_mapSet, if_pos rfl]
    rfl
  · rw [mapGet_mapSet, if_neg (by decide)]
    rfl

/-- C7: with a non-empty cached bearer token, Request performs zero token
fetches, leaves the client unchanged, and sends the cached token as Bearer
authorization; and the cached token changes at all only when it was empty
and the token fetch succeeded, in which case it becomes the non-empty
fetched token. -/
theorem claim7_theorem (pa : togglPlanApi) (url method bdy : String)
    (hs : List (String × String)) (tokenO mainO : Nat → AttemptOutcome) :
    (pa.bearerToken ≠ "" →
      (Request pa url method bdy hs tokenO mainO).tokenFetches = 0 ∧
      (Request pa url method bdy hs tokenO mainO).tokenCall = none ∧
      (Request pa url method bdy hs tokenO mainO).client = pa ∧
      ((Request pa url method bdy hs tokenO mainO).mainCall.map
          (fun r => mapGet r.sent.headers "Authorization")) =
        some (some ("Bearer " ++ pa.bearerToken))) ∧
    ((Request pa url method bdy hs tokenO mainO).client.bearerToken ≠ pa.bearerToken →
      pa.bearerToken = "" ∧ (getToken pa tokenO).error = none ∧
      (Request pa url method bdy hs tokenO mainO).client.bearerToken =
        (getToken pa tokenO).result ∧
      (Request pa url method bdy hs tokenO mainO).client.bearerToken ≠ "") := by
  constructor
  · intro h
    have hr := Request_cached pa url method bdy hs tokenO mainO h
    rw [hr]
    refine ⟨rfl, rfl, rfl, ?_⟩
    simp only [Option.map_some']
    rw [requestBody_auth]
  · intro hne
    by_cases h : pa.bearerToken = ""
    · cases hg : (getToken pa tokenO).error with
      | none =>
        have hr := Request_noToken_success pa url method bdy hs tokenO mainO h hg
        rw [hr]
        exact ⟨h, rfl, rfl, getToken_success_ne_empty pa tokenO hg⟩
      | some e =>
        have hr := Request_noToken_failure pa url method bdy hs tokenO mainO h e hg
        rw [hr] at hne
        exact absurd rfl hne
    · have hr := Request_cached pa url method bdy hs tokenO mainO h
      rw [hr] at hne
      exact absurd rfl hne

/-- C7, witness: the cached-token conjunct applied to a client holding the
token "tok". -/
theorem claim7_witness :
    (Request paDemo demoUrl "GET" "" [] (oracle200 tokenBodyOk)
      (oracle200 "ok")).tokenFetches = 0 ∧
    (Request paDemo demoUrl "GET" "" [] (oracle200 tokenBodyOk)
      (oracle200 "ok")).client = paDemo := by
  have h := (claim7_theorem paDemo demoUrl "GET" "" [] (oracle200 tokenBodyOk)
    (oracle200 "ok")).1 (by decide)
  exact ⟨h.1, h.2.2.1⟩

/-- C10: every call to Request preserves the username, password, clientId
and clientSecret of the client; the whole client is unchanged unless the
token was empty on entry and the fetch succeeded, in which case the cached
token becomes the fetched non-empty token; and GetToken returns exactly the
cached token field of the resulting client. -/
theorem claim10_theorem (pa : togglPlanApi) (url method bdy : String)
    (hs : List (String × String)) (tokenO mainO : Nat → AttemptOutcome) :
    (Request pa url method bdy hs tokenO mainO).client.username = pa.username ∧
    (Request pa url method bdy hs tokenO mainO).client.password = pa.password ∧
    (Request pa url method bdy hs tokenO mainO).client.clientId = pa.clientId ∧
    (Request pa url method bdy hs tokenO mainO).client.clientSecret = pa.clientSecret ∧
    GetToken (Request pa url method bdy hs tokenO mainO).client =
      (Request pa url method bdy hs tokenO mainO).client.bearerToken ∧
    ((Request pa url method bdy hs tokenO mainO).client = pa ∨
      (pa.bearerToken = "" ∧ (getToken pa tokenO).error = none ∧
        (Request pa url method bdy hs tokenO mainO).client.bearerToken =
          (getToken pa tokenO).result ∧
        (Request pa url method bdy hs tokenO mainO).client.bearerToken ≠ "")) := by
  by_cases h : pa.bearerToken = ""
  · cases hg : (getToken pa tokenO).error with
    | none =>
      have hr := Request_noToken_success pa url method bdy hs tokenO mainO h hg
      rw [hr]
      exact ⟨rfl, rfl, rfl, rfl, rfl,
        Or.inr ⟨h, rfl, rfl, getToken_success_ne_empty pa tokenO hg⟩⟩
    | some e =>
      have hr := Request_noToken_failure pa url method bdy hs tokenO mainO h e hg
      rw [hr]
      exact ⟨rfl, rfl, rfl, rfl, rfl, Or.inl rfl⟩
  · have hr := Request_cached pa url method bdy hs tokenO mainO h
    rw [hr]
    exact ⟨rfl, rfl, rfl, rfl, rfl, Or.inl rfl⟩

/-- C10, witness: the frame conjuncts applied to a concrete call on a client
with a cached token. -/
theorem claim10_witness :
    (Request paDemo demoUrl "GET" "" [] (oracle200 tokenBodyOk)
      (oracle200 "ok")).client.username = paDemo.username ∧
    GetToken (Request paDemo demoUrl "GET" "" [] (oracle200 tokenBodyOk)
        (oracle200 "ok")).client =
      (Request paDemo demoUrl "GET" "" [] (oracle200 tokenBodyOk)
        (oracle200 "ok")).client.bearerToken := by
  have h := claim10_theorem paDemo demoUrl "GET" "" [] (oracle200 tokenBodyOk) (oracle200 "ok")
  exact ⟨h.1, h.2.2.2.2.1⟩

end Togglplanapi
